import Mathlib

/-!
Shallow embedding of the replication / conflict-resolution subsystem of the
reflection-journal application (files `sync_manager.py`, `github_sync.py`,
and the deletion-backup queue of `main.py`).

Modelling conventions:
* Timestamps are `Int` values (UTC seconds); SQLite `MAX(updated_at)` and
  Python datetime comparisons become `Int` comparisons.
* The SQLite `reflections` table is a list of `Record`s in physical row
  order; `SELECT * ... ORDER BY created_at` is a sort of that list.
* The `tags` TEXT column is `Option (List String)`: `none` models a NULL or
  empty string (falsy in Python), `some l` models the JSON text of list `l`
  (in particular `some []` models the stored string that parses to `[]`).
* The remote GitHub repository is collapsed to the state the sync code
  observes: a configured flag, the latest monthly snapshot blob, and the
  commit time of the latest backup file.
* Network reliability is made explicit in a `Net` record: each remote
  operation consults its flag and, as in the Python code, catches its own
  failures and reports a boolean instead of raising, so the `try/except`
  wrappers in `sync_manager.py` never fire for remote errors (local SQLite
  access is modelled as reliable).
* The local `sync_log` bookkeeping table written by `_update_sync_log` is
  not modelled: no synchronisation decision reads it.
-/

/-- One row of the `reflections` table (schema in `database.py:init_db`). -/
structure Record where
  id : Nat
  content : String
  summary : Option String
  tags : Option (List String)
  category : Option String
  created_at : Int
  updated_at : Int
  type : Option String
  embedding : Option (List Nat)
  deriving DecidableEq, Repr

/-- One entry of a snapshot's `reflections` array: the dict built by
`GitHubSync.export_to_json` for a row — all columns except `embedding`,
which is popped, and with `tags` parsed from JSON when truthy. -/
structure SRecord where
  id : Nat
  content : String
  summary : Option String
  tags : Option (List String)
  category : Option String
  created_at : Int
  updated_at : Int
  type : Option String
  deriving DecidableEq, Repr

/-- The JSON document produced by `GitHubSync.export_to_json`. -/
structure Snapshot where
  export_time : Int
  total_count : Nat
  reflections : List SRecord
  deriving DecidableEq, Repr

/-- The local SQLite database, restricted to the `reflections` table. -/
structure LocalDB where
  reflections : List Record
  deriving DecidableEq, Repr

/-- The remote GitHub repository as observed by the sync code: whether
credentials/repo resolve (`GitHubSync.is_configured`), the latest
`reflections_backup_*.json` blob, and the commit time of that blob. -/
structure RemoteRepo where
  configured : Bool
  snapshot : Option Snapshot
  commitTime : Option Int
  deriving DecidableEq, Repr

/-- Reliability of the remote API during one operation sequence: whether
snapshot writes, snapshot reads, and the remote-modification-time query
succeed.  `false` models a transient network/API failure, which the Python
code catches internally and converts to a `False` return or `None`. -/
structure Net where
  writeOk : Bool
  readOk : Bool
  timeOk : Bool
  deriving DecidableEq, Repr

/-- `GitHubSync.is_configured`: `bool(self.token and self.repo_name and self.repo)`. -/
def is_configured (remote : RemoteRepo) : Bool :=
  remote.configured

/-- The dict `export_to_json` builds for one row: every column, `embedding`
popped, `tags` left as-is when falsy and parsed from JSON when truthy
(in this model both cases are the identity on `Option (List String)`). -/
def exportRecord (r : Record) : SRecord :=
  { id := r.id, content := r.content, summary := r.summary, tags := r.tags,
    category := r.category, created_at := r.created_at,
    updated_at := r.updated_at, type := r.type }

/-- `GitHubSync.export_to_json`: `SELECT * FROM reflections ORDER BY
created_at`, one exported dict per row, plus `COUNT(*)` and the export
time.  The `ORDER BY` is modelled as a sort on `created_at`. -/
def export_to_json (db : LocalDB) (now : Int) : Snapshot :=
  { export_time := now,
    total_count := db.reflections.length,
    reflections :=
      (db.reflections.insertionSort
        (fun a b => a.created_at ≤ b.created_at)).map exportRecord }

/-- `GitHubSync.sync_to_github`: when unconfigured, warn and return `False`;
otherwise export and create/update the monthly backup blob, returning
`True`, or catch the API failure and return `False`.  A successful push
creates a new commit, so the remote commit time becomes `now`. -/
def sync_to_github (db : LocalDB) (remote : RemoteRepo) (net : Net)
    (now : Int) : Bool × RemoteRepo :=
  if ¬ is_configured remote then (false, remote)
  else if net.writeOk then
    (true, { remote with snapshot := some (export_to_json db now),
                         commitTime := some now })
  else (false, remote)

/-- The row `_import_from_json` (and the restoration loop of
`_merge_from_remote`) inserts for one snapshot entry: the eight listed
columns, with `tags` re-serialised (`"[]"` when falsy) and `embedding`
absent from the column list, hence NULL. -/
def importRecord (s : SRecord) : Record :=
  { id := s.id, content := s.content, summary := s.summary,
    tags := some (s.tags.getD []),
    category := s.category, created_at := s.created_at,
    updated_at := s.updated_at, type := s.type, embedding := none }

/-- `GitHubSync._import_from_json`: `DELETE FROM reflections`, then one
`INSERT` per snapshot entry; returns `True` (its `except` branch models a
local-storage failure, which this model treats as reliable). -/
def import_from_json (snap : Snapshot) : Bool × LocalDB :=
  (true, { reflections := snap.reflections.map importRecord })

/-- `GitHubSync.sync_from_github`: when unconfigured return `False`; fetch
the directory listing (a remote read that can fail transiently), return
`False` when no backup file exists, otherwise import the newest backup. -/
def sync_from_github (db : LocalDB) (remote : RemoteRepo) (net : Net) :
    Bool × LocalDB :=
  if ¬ is_configured remote then (false, db)
  else if ¬ net.readOk then (false, db)
  else
    match remote.snapshot with
    | none => (false, db)
    | some snap => import_from_json snap

/-- The state a `SyncManager` instance owns, together with the stores it
acts on: the policy flag and the in-memory fields from `__init__`, the
persisted `.sync_state.json` content, the local database and the remote
repository. -/
structure SyncState where
  sync_deletions : Bool
  is_syncing : Bool
  last_sync_time : Option Int
  sync_state_file : Option Int
  db : LocalDB
  remote : RemoteRepo
  deriving DecidableEq, Repr

/-- `SyncManager._get_local_last_modified`: `SELECT MAX(updated_at) FROM
reflections`, `None` when the table is empty. -/
def get_local_last_modified (db : LocalDB) : Option Int :=
  match db.reflections.map (fun r => r.updated_at) with
  | [] => none
  | t :: ts => some (ts.foldl max t)

/-- `SyncManager._get_remote_last_modified`: the commit time of the newest
backup file; any failure — including the `AttributeError` raised when
unconfigured (`self.github_sync.repo` is `None`) — is caught and yields
`None`, as does an empty repository. -/
def get_remote_last_modified (remote : RemoteRepo) (net : Net) : Option Int :=
  if is_configured remote && net.timeOk then remote.commitTime else none

/-- One SQLite `INSERT OR REPLACE` on the `reflections` table: replace the
row with the same primary key in place, or append a new row. -/
def insert_or_replace (db : LocalDB) (r : Record) : LocalDB :=
  if db.reflections.any (fun x => x.id == r.id) then
    { reflections := db.reflections.map (fun x => if x.id == r.id then r else x) }
  else
    { reflections := db.reflections ++ [r] }

/-- The body of the restoration loop in `SyncManager._merge_from_remote`:
for one id of `locally_added`, look its dict up in the in-memory export
(`local_ids[reflection_id]`) and `INSERT OR REPLACE` the corresponding row;
the insert re-serialises `tags` and omits `embedding`, exactly like an
import. -/
def restoreStep (rows : List SRecord) (d : LocalDB) (i : Nat) : LocalDB :=
  match rows.find? (fun r => r.id == i) with
  | some r => insert_or_replace d (importRecord r)
  | none => d

/-- `SyncManager._merge_from_remote`: export the local data and record its
id set, overwrite the local database from the remote (the boolean result of
`sync_from_github` is ignored, as on line 114 of `sync_manager.py`), export
again to obtain the remote id set, compute `locally_added` as the ids
present before but not after, and either restore those rows and re-upload
(deletion sync disabled) or keep the overwritten state (enabled).
Lookup by id in the in-memory export uses `find?`; ids are unique in a
snapshot exported from the table (`id` is the primary key). -/
def merge_from_remote (st : SyncState) (net : Net) (now : Int) : SyncState :=
  let local_data := export_to_json st.db now
  let original_local_ids := local_data.reflections.map (fun r => r.id)
  let db1 := (sync_from_github st.db st.remote net).2
  let remote_data := export_to_json db1 now
  let remote_id_set := remote_data.reflections.map (fun r => r.id)
  let locally_added :=
    original_local_ids.filter (fun i => ! remote_id_set.contains i)
  if ¬ st.sync_deletions then
    let db2 :=
      locally_added.foldl (restoreStep local_data.reflections) db1
    let remote2 := (sync_to_github db2 st.remote net now).2
    { st with db := db2, remote := remote2 }
  else
    { st with db := db1 }

/-- `SyncManager._smart_merge`: within 60 seconds treat the stores as
already consistent and do nothing; otherwise merge from the remote when it
is strictly newer, else upload.  (`abs(...total_seconds()) < 60` becomes
`natAbs` of the difference in seconds.) -/
def smart_merge (st : SyncState) (local_time remote_time : Int) (net : Net)
    (now : Int) : SyncState :=
  if (local_time - remote_time).natAbs < 60 then st
  else if remote_time > local_time then merge_from_remote st net now
  else
    { st with remote := (sync_to_github st.db st.remote net now).2 }

/-- `SyncManager.sync_on_startup`: read both modification times, take the
upload / download / smart-merge branch, then unconditionally set and
persist `last_sync_time`.  The boolean results of `sync_to_github` and
`sync_from_github` are ignored, and the surrounding `try/except` can only
fire for local SQLite errors (remote operations catch their own), so the
except branch is unreachable in this model. -/
def sync_on_startup (st : SyncState) (net : Net) (now : Int) : SyncState :=
  let local_last_modified := get_local_last_modified st.db
  let remote_last_modified := get_remote_last_modified st.remote net
  let st1 :=
    match remote_last_modified with
    | none =>
      { st with remote := (sync_to_github st.db st.remote net now).2 }
    | some remote_time =>
      match local_last_modified with
      | none =>
        { st with db := (sync_from_github st.db st.remote net).2 }
      | some local_time => smart_merge st local_time remote_time net now
  { st1 with last_sync_time := some now, sync_state_file := some now }

/-- `SyncManager.manual_sync`: reject when a session is active; otherwise
set `is_syncing`, run the requested direction (`"both"` delegates to
`sync_on_startup` and hard-codes `success = True`), update and persist
`last_sync_time` only when `success`, and clear `is_syncing` in the
`finally` block.  Completion callbacks mutate no modelled state. -/
def manual_sync (st : SyncState) (direction : String) (net : Net)
    (now : Int) : Bool × SyncState :=
  if st.is_syncing then (false, st)
  else
    let st0 := { st with is_syncing := true }
    let step : Bool × SyncState :=
      if direction = "upload" then
        ((sync_to_github st0.db st0.remote net now).1,
         { st0 with remote := (sync_to_github st0.db st0.remote net now).2 })
      else if direction = "download" then
        ((sync_from_github st0.db st0.remote net).1,
         { st0 with db := (sync_from_github st0.db st0.remote net).2 })
      else
        (true, sync_on_startup st0 net now)
    let st2 :=
      if step.1 then
        { step.2 with last_sync_time := some now, sync_state_file := some now }
      else step.2
    (step.1, { st2 with is_syncing := false })

/-- One iteration of the body of `SyncManager._sync_loop` after the sleep:
skip when a session is active, otherwise upload exactly when a local
modification time and a recorded `last_sync_time` both exist and the former
is strictly newer, then set and persist `last_sync_time` (the upload's
boolean result is ignored).  The returned flag reports whether an upload
was attempted; `is_syncing` is set for the duration and reset in the
`finally`, so it is unchanged in the resulting state. -/
def sync_tick (st : SyncState) (net : Net) (now : Int) : Bool × SyncState :=
  if st.is_syncing then (false, st)
  else
    match get_local_last_modified st.db, st.last_sync_time with
    | some local_modified, some last_time =>
      if local_modified > last_time then
        (true, { st with remote := (sync_to_github st.db st.remote net now).2,
                         last_sync_time := some now,
                         sync_state_file := some now })
      else (false, st)
    | _, _ => (false, st)

/-- One deletion-backup blob written under `deleted_records/` by
`_do_backup_to_github`: `{deleted_at, record}` in a uniquely-named file. -/
structure BackupBlob where
  deleted_at : Int
  record : Record
  deriving DecidableEq, Repr

/-- The deletion-backup subsystem of `ReflectionJournalApp`: whether the
remote is configured, the FIFO `backup_queue` (a `queue.Queue` of pending
jobs, front first), and the sequence of backup blobs already written to the
remote, in write order. -/
structure AppState where
  configured : Bool
  backup_queue : List Record
  remote_backups : List BackupBlob
  deriving DecidableEq, Repr

/-- `ReflectionJournalApp.backup_deleted_record`: return `False` without
queuing when the remote is unconfigured; otherwise put the job on the
queue — a non-blocking append that performs no remote write — and return
`True`. -/
def backup_deleted_record (app : AppState) (reflection : Record) :
    Bool × AppState :=
  if ¬ app.configured then (false, app)
  else (true, { app with backup_queue := app.backup_queue ++ [reflection] })

/-- `ReflectionJournalApp._do_backup_to_github`: create one uniquely-named
blob `{deleted_at, record}` on the remote; on a transient API failure the
error is caught, nothing is written, and the job is dropped. -/
def do_backup_to_github (app : AppState) (net : Net) (now : Int)
    (reflection : Record) : AppState :=
  if net.writeOk then
    { app with remote_backups :=
        app.remote_backups ++ [{ deleted_at := now, record := reflection }] }
  else app

/-- One iteration of the single worker loop
`ReflectionJournalApp._process_backup_queue`: take the front job off the
queue (blocking on empty, modelled as the identity) and run the backup for
it; there is exactly one worker thread, so at most one backup write is ever
in flight. -/
def process_backup_queue_step (app : AppState) (net : Net) (now : Int) :
    AppState :=
  match app.backup_queue with
  | [] => app
  | reflection :: rest =>
    do_backup_to_github { app with backup_queue := rest } net now reflection

/-- The worker loop run until the queue is drained, expressed by recursion
on the list of pending jobs: `process_backup_queue jobs app` iterates
`process_backup_queue_step` once per pending job. -/
def process_backup_queue : List Record → AppState → Net → Int → AppState
  | [], app, _, _ => app
  | _ :: rest, app, net, now =>
    process_backup_queue rest (process_backup_queue_step app net now) net now

/-- Drain the current queue with the single worker. -/
def drain_backup_queue (app : AppState) (net : Net) (now : Int) : AppState :=
  process_backup_queue app.backup_queue app net now

/-! Concrete fixtures used by witnesses and counterexamples. -/

/-- A fully reliable remote. -/
def netAllOk : Net := { writeOk := true, readOk := true, timeOk := true }

/-- A remote whose snapshot writes fail transiently. -/
def netNoWrite : Net := { writeOk := false, readOk := true, timeOk := true }

/-- A sample local record; it carries an embedding vector. -/
def rec1 : Record :=
  { id := 1, content := "one", summary := some "s1", tags := some [],
    category := some "c", created_at := 10, updated_at := 100,
    type := some "daily", embedding := some [7] }

/-- A sample snapshot entry with id 2. -/
def srec2 : SRecord :=
  { id := 2, content := "two", summary := some "s2", tags := some [],
    category := some "c", created_at := 20, updated_at := 200,
    type := some "daily" }

/-- A remote snapshot holding only record 2. -/
def snapR : Snapshot :=
  { export_time := 40, total_count := 1, reflections := [srec2] }

/-- A configured remote carrying `snapR`, last committed at time 130. -/
def remoteC : RemoteRepo :=
  { configured := true, snapshot := some snapR, commitTime := some 130 }

/-- A configured but still empty remote: no backup file, no commit. -/
def remoteEmpty : RemoteRepo :=
  { configured := true, snapshot := none, commitTime := none }

/-- A manager state with a sync session already active. -/
def stBusy : SyncState :=
  { sync_deletions := true, is_syncing := true, last_sync_time := some 90,
    sync_state_file := some 90, db := { reflections := [rec1] },
    remote := remoteC }

/-- An idle manager state over the same stores. -/
def stIdle : SyncState :=
  { sync_deletions := true, is_syncing := false, last_sync_time := some 90,
    sync_state_file := some 90, db := { reflections := [rec1] },
    remote := remoteC }

/-- An idle manager state that has never recorded a sync. -/
def stNever : SyncState :=
  { sync_deletions := true, is_syncing := false, last_sync_time := none,
    sync_state_file := none, db := { reflections := [rec1] },
    remote := remoteC }

/-- An idle, never-synced manager state over a configured but still empty
remote: the startup sync will take the upload branch. -/
def stEmptyRemote : SyncState :=
  { sync_deletions := true, is_syncing := false, last_sync_time := none,
    sync_state_file := none, db := { reflections := [rec1] },
    remote := remoteEmpty }

/-- C5: invoking `manual_sync` while a sync session is already active
(`is_syncing` true) returns `False` immediately and leaves the manager
state, the local store, the remote store and `last_sync_time` unchanged —
the second session is rejected, not queued. -/
theorem manual_sync_rejects_concurrent_session (st : SyncState)
    (direction : String) (net : Net) (now : Int)
    (h : st.is_syncing = true) :
    manual_sync st direction net now = (false, st) := by
  simp [manual_sync, h]

/-- Witness for C5 at a concrete busy state. -/
theorem manual_sync_rejects_concurrent_session_witness :
    manual_sync stBusy "both" netAllOk 500 = (false, stBusy) :=
  manual_sync_rejects_concurrent_session stBusy "both" netAllOk 500 rfl

/-- C7: a deletion-backup enqueue request with the remote configured is
non-blocking, appends the job to the queue, returns `True`, and performs no
remote write (`remote_backups` is untouched); with the remote unconfigured
it returns `False` and queues nothing. -/
theorem backup_deleted_record_enqueue_contract (app : AppState)
    (reflection : Record) :
    backup_deleted_record app reflection =
      if app.configured then
        (true, { app with backup_queue := app.backup_queue ++ [reflection] })
      else (false, app) := by
  cases h : app.configured <;> simp [backup_deleted_record, h]

/-- C9: a `manual_sync` with direction `"both"` issued while no session is
active returns `True` and updates and persists `last_sync_time`, whatever
the remote reliability `net` is — the `"both"` branch hard-codes
`success = True` and `sync_on_startup` absorbs all remote failures. -/
theorem manual_sync_both_reports_success_despite_remote (st : SyncState)
    (net : Net) (now : Int) (h : st.is_syncing = false) :
    (manual_sync st "both" net now).1 = true ∧
    (manual_sync st "both" net now).2.last_sync_time = some now ∧
    (manual_sync st "both" net now).2.sync_state_file = some now := by
  simp [manual_sync, h, sync_on_startup]

/-- Witness for C9 at a concrete idle state whose remote write fails. -/
theorem manual_sync_both_reports_success_despite_remote_witness :
    (manual_sync stIdle "both" netNoWrite 500).1 = true ∧
    (manual_sync stIdle "both" netNoWrite 500).2.last_sync_time = some 500 ∧
    (manual_sync stIdle "both" netNoWrite 500).2.sync_state_file = some 500 :=
  manual_sync_both_reports_success_despite_remote stIdle netNoWrite 500 rfl

/-- C10: a periodic tick attempts an upload only when a local modification
time and a recorded `last_sync_time` both exist and the former is strictly
greater; in particular a tick with `last_sync_time` absent is a complete
no-op even when modified records exist locally. -/
theorem sync_tick_upload_guard (st : SyncState) (net : Net) (now : Int) :
    ((sync_tick st net now).1 = true →
      st.is_syncing = false ∧
      ∃ local_modified last_time,
        get_local_last_modified st.db = some local_modified ∧
        st.last_sync_time = some last_time ∧ local_modified > last_time) ∧
    (st.last_sync_time = none → sync_tick st net now = (false, st)) := by
  constructor
  · intro h
    unfold sync_tick at h
    split at h
    · simp at h
    · next hb =>
      refine ⟨by simpa using hb, ?_⟩
      split at h
      · next lm lt hl hr =>
        split at h
        · next hgt => exact ⟨lm, lt, hl, hr, hgt⟩
        · simp at h
      · simp at h
  · intro h
    cases hb : st.is_syncing <;>
      rcases hl : get_local_last_modified st.db with _ | lm <;>
        simp [sync_tick, hb, hl, h]

/-- Witness for C10: state with a modified record but no recorded sync. -/
theorem sync_tick_upload_guard_witness :
    sync_tick stNever netAllOk 500 = (false, stNever) :=
  (sync_tick_upload_guard stNever netAllOk 500).2 rfl

/-- C3: when both modification times are present and differ by strictly
less than 60 seconds, the smart merge treats the stores as already
consistent and does nothing: a startup sync leaves both the local database
and the remote repository exactly as they were (only the sync timestamp is
rewritten), and `smart_merge` itself is the identity. -/
theorem smart_merge_noop_when_times_close (st : SyncState) (net : Net)
    (now local_time remote_time : Int)
    (hl : get_local_last_modified st.db = some local_time)
    (hr : get_remote_last_modified st.remote net = some remote_time)
    (hclose : (local_time - remote_time).natAbs < 60) :
    smart_merge st local_time remote_time net now = st ∧
    (sync_on_startup st net now).db = st.db ∧
    (sync_on_startup st net now).remote = st.remote := by
  have hsm : smart_merge st local_time remote_time net now = st := by
    simp [smart_merge, hclose]
  exact ⟨hsm, by simp [sync_on_startup, hl, hr, hsm]⟩

/-- Witness for C3: local time 100, remote time 130, 30 seconds apart. -/
theorem smart_merge_noop_when_times_close_witness :
    smart_merge stIdle 100 130 netAllOk 500 = stIdle ∧
    (sync_on_startup stIdle netAllOk 500).db = stIdle.db ∧
    (sync_on_startup stIdle netAllOk 500).remote = stIdle.remote :=
  smart_merge_noop_when_times_close stIdle netAllOk 500 100 130
    (by decide) (by decide) (by decide)

/-- C4: the startup/manual `"both"` sync follows the decision table.  With
the remote configured: a missing remote modification time takes the upload
branch (on a successful write the remote snapshot becomes the local
export, the local store untouched); a present remote time with a missing
local time takes the download branch (on a successful read the local store
is overwritten wholesale — delete-all then insert-all — with the remote
snapshot's rows, the remote untouched); two present times run the smart
merge, followed only by the timestamp update. -/
theorem sync_on_startup_decision_table (st : SyncState) (net : Net)
    (now : Int) :
    (get_remote_last_modified st.remote net = none →
      is_configured st.remote = true → net.writeOk = true →
      (sync_on_startup st net now).remote.snapshot =
        some (export_to_json st.db now) ∧
      (sync_on_startup st net now).db = st.db) ∧
    (∀ remote_time snap,
      get_remote_last_modified st.remote net = some remote_time →
      get_local_last_modified st.db = none →
      net.readOk = true → st.remote.snapshot = some snap →
      (sync_on_startup st net now).db.reflections =
        snap.reflections.map importRecord ∧
      (sync_on_startup st net now).remote = st.remote) ∧
    (∀ remote_time local_time,
      get_remote_last_modified st.remote net = some remote_time →
      get_local_last_modified st.db = some local_time →
      sync_on_startup st net now =
        { smart_merge st local_time remote_time net now with
            last_sync_time := some now, sync_state_file := some now }) := by
  refine ⟨?_, ?_, ?_⟩
  · intro hr hc hw
    simp [sync_on_startup, hr, sync_to_github, hc, hw]
  · intro remote_time snap hr hl hread hsnap
    have hc : is_configured st.remote = true := by
      by_cases h : (is_configured st.remote && net.timeOk) = true
      · exact (Bool.and_eq_true _ _).mp h |>.1
      · rw [get_remote_last_modified, if_neg h] at hr; cases hr
    simp [sync_on_startup, hr, hl, sync_from_github, hc, hread, hsnap,
      import_from_json]
  · intro remote_time local_time hr hl
    simp [sync_on_startup, hr, hl]

/-- Witness for C4, exercising all three branches on concrete states:
upload when the remote is empty, wholesale download when the local store is
empty, smart merge when both sides have data. -/
theorem sync_on_startup_decision_table_witness :
    ((sync_on_startup { stIdle with remote := remoteEmpty }
        netAllOk 500).remote.snapshot =
      some (export_to_json stIdle.db 500) ∧
     (sync_on_startup { stIdle with remote := remoteEmpty }
        netAllOk 500).db = stIdle.db) ∧
    ((sync_on_startup { stIdle with db := { reflections := [] } }
        netAllOk 500).db.reflections = snapR.reflections.map importRecord ∧
     (sync_on_startup { stIdle with db := { reflections := [] } }
        netAllOk 500).remote = stIdle.remote) ∧
    (sync_on_startup stIdle netAllOk 500 =
      { smart_merge stIdle 100 130 netAllOk 500 with
          last_sync_time := some 500, sync_state_file := some 500 }) := by
  refine ⟨?_, ?_, ?_⟩
  · exact (sync_on_startup_decision_table _ netAllOk 500).1
      (by decide) (by decide) (by decide)
  · have h := (sync_on_startup_decision_table
      { stIdle with db := { reflections := [] } } netAllOk 500).2.1
      130 snapR (by decide) (by decide) (by decide) (by decide)
    exact ⟨h.1, by rw [h.2]⟩
  · exact (sync_on_startup_decision_table stIdle netAllOk 500).2.2
      130 100 (by decide) (by decide)

/-- C1 (diverging behaviour at a failing input): `stEmptyRemote` has a
configured but empty remote (no backup file, no commit time) and has never
synced, and under `netNoWrite` every snapshot write fails transiently.
Conjunct 1: the remote modification time reads back absent, so a `"both"`
session takes the upload branch of `sync_on_startup`.  Conjunct 2: the
upload that branch executes — `sync_to_github` on exactly the session's
database and remote — reports failure.  Conjunct 3: the session
nevertheless returns `True` and overwrites the persisted `last_sync_time`
from `none` to `some 100` while leaving the remote empty (nothing was
uploaded): `sync_on_startup` ignores the returned boolean and its `except`
branch is unreachable for remote errors, which are caught inside
`GitHubSync`.  Conjunct 4 records the pre-state.  Conjuncts 5 and 6 show
the explicit `"upload"`/`"download"` directions do guard the timestamp
update on success, as the claim demands. -/
theorem startup_sync_persists_time_despite_remote_failure :
    get_remote_last_modified stEmptyRemote.remote netNoWrite = none ∧
    (sync_to_github stEmptyRemote.db stEmptyRemote.remote
        netNoWrite 100).1 = false ∧
    manual_sync stEmptyRemote "both" netNoWrite 100 =
      (true, { stEmptyRemote with last_sync_time := some 100,
                                  sync_state_file := some 100 }) ∧
    stEmptyRemote.sync_state_file = none ∧
    manual_sync stEmptyRemote "upload" netNoWrite 100 =
      (false, stEmptyRemote) ∧
    manual_sync stEmptyRemote "download" netAllOk 100 =
      (false, stEmptyRemote) := by
  refine ⟨by decide, by decide, by decide, by decide, by decide, by decide⟩

/-- Draining a queue with the single worker appends one backup blob per
pending job, in queue order, when the remote accepts the writes. -/
theorem process_backup_queue_eq (jobs : List Record) (configured : Bool)
    (written : List BackupBlob) (net : Net) (now : Int)
    (hw : net.writeOk = true) :
    process_backup_queue jobs
      { configured := configured, backup_queue := jobs,
        remote_backups := written } net now =
      { configured := configured, backup_queue := [],
        remote_backups :=
          written ++ jobs.map (fun r => { deleted_at := now, record := r }) } := by
  induction jobs generalizing written with
  | nil => simp [process_backup_queue]
  | cons r rest ih =>
    simp [process_backup_queue, process_backup_queue_step,
      do_backup_to_github, hw, ih]

/-- C6: deletion-backup jobs are written strictly in enqueue order by the
single worker.  Enqueuing job `A` (the call returning before `B`'s call is
made) and then job `B` on a configured app, and letting the one worker
drain the queue, yields a remote backup trace equal to the previous trace
followed by the previously pending jobs and then `A`'s blob and then `B`'s
blob — so `A`'s backup write happens strictly before `B`'s, and since each
worker iteration performs a single write, at most one write is in flight at
any time. -/
theorem backup_queue_fifo (app : AppState) (A B : Record) (net : Net)
    (now : Int) (hconf : app.configured = true) (hw : net.writeOk = true) :
    (drain_backup_queue
        (backup_deleted_record (backup_deleted_record app A).2 B).2
        net now).remote_backups =
      app.remote_backups ++
        (app.backup_queue ++ [A, B]).map
          (fun r => { deleted_at := now, record := r }) := by
  obtain ⟨c, q, w⟩ := app
  simp only at hconf
  subst hconf
  simp [backup_deleted_record, drain_backup_queue,
    process_backup_queue_eq _ _ _ _ _ hw]

/-- Witness for C6: two concrete jobs on an initially empty queue. -/
theorem backup_queue_fifo_witness :
    (drain_backup_queue
        (backup_deleted_record
          (backup_deleted_record
            { configured := true, backup_queue := [],
              remote_backups := [] } rec1).2
          (importRecord srec2)).2
        netAllOk 600).remote_backups =
      ([] : List BackupBlob) ++
        (([] : List Record) ++ [rec1, importRecord srec2]).map
          (fun r => { deleted_at := 600, record := r }) :=
  backup_queue_fifo
    { configured := true, backup_queue := [], remote_backups := [] }
    rec1 (importRecord srec2) netAllOk 600 rfl rfl

/-- C8 (amended): an exported snapshot covers the whole local store — its
`total_count` and its entry list match the table's cardinality, and every
row appears as its exported dict, so there are no partial records — but it
deliberately omits the `embedding` column; downloading a snapshot into an
empty local store therefore reproduces every record with identical values
for `id`, `content`, `summary`, `category`, `created_at`, `updated_at` and
`type`, with absent `tags` normalized to the empty list and `embedding`
absent. -/
theorem snapshot_export_import_roundtrip (db : LocalDB) (now : Int) :
    (export_to_json db now).total_count = db.reflections.length ∧
    (export_to_json db now).reflections.length = db.reflections.length ∧
    (∀ r ∈ db.reflections,
      exportRecord r ∈ (export_to_json db now).reflections) ∧
    (∀ r ∈ db.reflections,
      ({ r with tags := some (r.tags.getD []), embedding := none } : Record) ∈
        (import_from_json (export_to_json db now)).2.reflections) := by
  have hmem : ∀ r ∈ db.reflections,
      exportRecord r ∈ (export_to_json db now).reflections := by
    intro r hr
    exact List.mem_map_of_mem exportRecord
      ((List.mem_insertionSort _).mpr hr)
  refine ⟨rfl, ?_, hmem, ?_⟩
  · simp only [export_to_json, List.length_map]
    exact (List.perm_insertionSort _ _).length_eq
  · intro r hr
    exact List.mem_map_of_mem importRecord (hmem r hr)

/-- Witness for C8 (amended) at a one-record store. -/
theorem snapshot_export_import_roundtrip_witness :
    ({ rec1 with tags := some (rec1.tags.getD []), embedding := none } :
        Record) ∈
      (import_from_json
        (export_to_json { reflections := [rec1] } 10)).2.reflections :=
  (snapshot_export_import_roundtrip { reflections := [rec1] } 10).2.2.2
    rec1 (by decide)

/-- C8 counterexample: the snapshot is not a total copy of LocalStore —
`export_to_json` pops the `embedding` column — so downloading a snapshot
of a store holding `rec1` (whose embedding is `some [7]`) into an empty
store does not reproduce the original record: the embedding comes back
NULL. -/
theorem snapshot_roundtrip_drops_embedding :
    (import_from_json
        (export_to_json { reflections := [rec1] } 10)).2.reflections ≠
      [rec1] ∧
    (import_from_json
        (export_to_json { reflections := [rec1] } 10)).2.reflections =
      [{ rec1 with embedding := none }] ∧
    rec1.embedding = some [7] := by
  refine ⟨by decide, by decide, rfl⟩

/-- The list of row ids of the local table. -/
def dbIds (db : LocalDB) : List Nat := db.reflections.map (fun r => r.id)

/-- The list of record ids of a snapshot. -/
def snapIds (snap : Snapshot) : List Nat :=
  snap.reflections.map (fun r => r.id)

/-- Exporting permutes but neither adds nor drops ids. -/
theorem snapIds_export_perm (db : LocalDB) (now : Int) :
    (snapIds (export_to_json db now)).Perm (dbIds db) := by
  have h := (List.perm_insertionSort
    (fun a b : Record => a.created_at ≤ b.created_at) db.reflections).map
    (fun r => r.id)
  simpa [snapIds, export_to_json, dbIds, List.map_map, Function.comp,
    exportRecord] using h

/-- Membership form of `snapIds_export_perm`. -/
theorem mem_snapIds_export (db : LocalDB) (now : Int) (j : Nat) :
    j ∈ snapIds (export_to_json db now) ↔ j ∈ dbIds db :=
  (snapIds_export_perm db now).mem_iff

/-- `INSERT OR REPLACE` either leaves the id column unchanged (replace) or
appends the new id (insert). -/
theorem mem_dbIds_insert_or_replace (db : LocalDB) (r : Record) (j : Nat) :
    j ∈ dbIds (insert_or_replace db r) ↔ j ∈ dbIds db ∨ j = r.id := by
  unfold insert_or_replace
  split
  · next h =>
    have hr : r.id ∈ dbIds db := by
      rcases List.any_eq_true.mp h with ⟨x, hx, hbeq⟩
      have hxr : x.id = r.id := eq_of_beq hbeq
      have hmem : x.id ∈ dbIds db := List.mem_map_of_mem _ hx
      rwa [hxr] at hmem
    have hsame :
        dbIds { reflections :=
          db.reflections.map (fun x => if x.id == r.id then r else x) } =
          dbIds db := by
      simp only [dbIds, List.map_map]
      refine List.map_congr_left ?_
      intro x _
      simp only [Function.comp]
      by_cases hx2 : (x.id == r.id) = true
      · simp [hx2, eq_of_beq hx2]
      · simp [hx2]
    rw [hsame]
    exact ⟨Or.inl, fun h2 => h2.elim id (fun he => he ▸ hr)⟩
  · simp [dbIds]

/-- The replaced-or-inserted row is present afterwards. -/
theorem self_mem_insert_or_replace (db : LocalDB) (r : Record) :
    r ∈ (insert_or_replace db r).reflections := by
  unfold insert_or_replace
  split
  · next h =>
    rcases List.any_eq_true.mp h with ⟨x, hx, hbeq⟩
    exact List.mem_map.mpr ⟨x, hx, by simp [hbeq]⟩
  · simp

/-- Rows with a different id survive an `INSERT OR REPLACE`. -/
theorem mem_insert_or_replace_of_ne (db : LocalDB) (r x : Record)
    (hx : x ∈ db.reflections) (hne : x.id ≠ r.id) :
    x ∈ (insert_or_replace db r).reflections := by
  unfold insert_or_replace
  split
  · refine List.mem_map.mpr ⟨x, hx, ?_⟩
    simp [beq_eq_false_iff_ne.mpr hne]
  · exact List.mem_append_left _ hx

/-- Ids after the restoration loop: the loop adds exactly the processed ids
(each of which names a row of the in-memory export). -/
theorem mem_dbIds_restore_foldl (rows : List SRecord) (ids : List Nat)
    (d : LocalDB) (j : Nat)
    (hids : ∀ i ∈ ids, ∃ r ∈ rows, r.id = i) :
    j ∈ dbIds (ids.foldl (restoreStep rows) d) ↔ j ∈ dbIds d ∨ j ∈ ids := by
  induction ids generalizing d with
  | nil => simp
  | cons i rest ih =>
    obtain ⟨r0, hr0mem, hr0id⟩ := hids i (by simp)
    have hfind : (rows.find? (fun r => r.id == i)).isSome := by
      rw [List.find?_isSome]
      exact ⟨r0, hr0mem, by simp [hr0id]⟩
    obtain ⟨r1, hr1⟩ := Option.isSome_iff_exists.mp hfind
    have hb1 := List.find?_some hr1
    have hr1id : r1.id = i := eq_of_beq hb1
    rw [List.foldl_cons,
      ih (restoreStep rows d i) (fun i2 h2 => hids i2 (by simp [h2]))]
    simp only [restoreStep, hr1, mem_dbIds_insert_or_replace, importRecord,
      hr1id, List.mem_cons]
    tauto

/-- A row whose id is not among the processed ids survives the restoration
loop untouched. -/
theorem mem_restore_foldl_of_id_notmem (rows : List SRecord)
    (ids : List Nat) (d : LocalDB) (x : Record) (hx : x ∈ d.reflections)
    (hnot : x.id ∉ ids) :
    x ∈ (ids.foldl (restoreStep rows) d).reflections := by
  induction ids generalizing d with
  | nil => exact hx
  | cons i rest ih =>
    rw [List.foldl_cons]
    refine ih _ ?_ (fun h => hnot (by simp [h]))
    unfold restoreStep
    cases hf : rows.find? (fun r => r.id == i) with
    | none => exact hx
    | some r1 =>
      refine mem_insert_or_replace_of_ne _ _ _ hx ?_
      have hb1 := List.find?_some hf
      have hr1id : r1.id = i := eq_of_beq hb1
      simp only [importRecord, hr1id]
      intro he
      exact hnot (by simp [he])

/-- A processed id's looked-up row is present after the restoration loop,
provided the processed ids are distinct. -/
theorem restored_mem_foldl (rows : List SRecord) (ids : List Nat)
    (d : LocalDB) (i : Nat) (r0 : SRecord) (hi : i ∈ ids)
    (hnd : ids.Nodup) (hfind : rows.find? (fun r => r.id == i) = some r0) :
    importRecord r0 ∈ (ids.foldl (restoreStep rows) d).reflections := by
  induction ids generalizing d with
  | nil => cases hi
  | cons a rest ih =>
    rw [List.foldl_cons]
    rcases List.mem_cons.mp hi with he | hrest
    · subst he
      have h1 : importRecord r0 ∈ (restoreStep rows d i).reflections := by
        simp only [restoreStep, hfind]
        exact self_mem_insert_or_replace _ _
      refine mem_restore_foldl_of_id_notmem _ _ _ _ h1 ?_
      have hb0 := List.find?_some hfind
      have hr0id : r0.id = i := eq_of_beq hb0
      simp only [importRecord, hr0id]
      exact (List.nodup_cons.mp hnd).1
    · exact ih _ hrest (List.nodup_cons.mp hnd).2

/-- Boolean-to-propositional bridge for the `locally_added` filter. -/
theorem not_contains_iff (l : List Nat) (j : Nat) :
    (! l.contains j) = true ↔ j ∉ l := by simp

/-- Importing a snapshot yields exactly the snapshot's ids. -/
theorem dbIds_import (snap : Snapshot) :
    dbIds ({ reflections := snap.reflections.map importRecord } : LocalDB) =
      snapIds snap := by
  simp [dbIds, snapIds, List.map_map, Function.comp, importRecord]

/-- C2 (amended): a merge-from-remote against a readable remote snapshot
with id set `R`, from a local store with distinct ids `L`.  If deletion
sync is disabled, every record of `L − R` is re-inserted with its exported
field values (all fields except the `embedding`, which snapshots omit and
which comes back NULL, and with absent `tags` normalized to the empty
list), and the merged snapshot is re-uploaded, so the local store and the
re-uploaded remote snapshot both carry id set `L ∪ R`.  If deletion sync
is enabled, the local store ends as exactly the imported remote rows (id
set `R`) and the remote is not touched — no re-upload happens. -/
theorem merge_from_remote_spec (st : SyncState) (net : Net) (now : Int)
    (snap0 : Snapshot) (hconf : st.remote.configured = true)
    (hread : net.readOk = true) (hwrite : net.writeOk = true)
    (hsnap : st.remote.snapshot = some snap0)
    (hnd : (dbIds st.db).Nodup) :
    (st.sync_deletions = false →
      (∀ j, j ∈ dbIds (merge_from_remote st net now).db ↔
        j ∈ dbIds st.db ∨ j ∈ snapIds snap0) ∧
      (∀ r ∈ st.db.reflections, r.id ∉ snapIds snap0 →
        importRecord (exportRecord r) ∈
          (merge_from_remote st net now).db.reflections) ∧
      (∃ snap2,
        (merge_from_remote st net now).remote.snapshot = some snap2 ∧
        ∀ j, j ∈ snapIds snap2 ↔ j ∈ dbIds st.db ∨ j ∈ snapIds snap0)) ∧
    (st.sync_deletions = true →
      (merge_from_remote st net now).db.reflections =
        snap0.reflections.map importRecord ∧
      (merge_from_remote st net now).remote = st.remote) := by
  have hsync2 : sync_from_github st.db st.remote net =
      (true, { reflections := snap0.reflections.map importRecord }) := by
    simp [sync_from_github, is_configured, hconf, hread, hsnap,
      import_from_json]
  constructor
  · intro hdel
    set rows := (export_to_json st.db now).reflections with hrows
    set dbR : LocalDB :=
      { reflections := snap0.reflections.map importRecord } with hdbRdef
    set la := (rows.map (fun r => r.id)).filter
      (fun i =>
        ! ((export_to_json dbR now).reflections.map
            (fun r => r.id)).contains i) with hla
    set db2 := la.foldl (restoreStep rows) dbR with hdb2
    have hm : merge_from_remote st net now =
        { st with db := db2,
                  remote := (sync_to_github db2 st.remote net now).2 } := by
      rw [hdb2, hla, hrows, hdbRdef]
      simp [merge_from_remote, hsync2, hdel]
    have hidsla : ∀ i ∈ la, ∃ r ∈ rows, r.id = i := by
      intro i hi
      rw [hla] at hi
      rcases List.mem_map.mp (List.mem_filter.mp hi).1 with ⟨r, hr, heq⟩
      exact ⟨r, hr, heq⟩
    have hdbRids : ∀ j, j ∈ dbIds dbR ↔ j ∈ snapIds snap0 := by
      intro j
      rw [hdbRdef, dbIds_import]
    have hlamem : ∀ j, j ∈ la ↔ j ∈ dbIds st.db ∧ j ∉ snapIds snap0 := by
      intro j
      rw [hla, List.mem_filter]
      constructor
      · rintro ⟨h1, h2⟩
        refine ⟨(mem_snapIds_export st.db now j).mp h1, ?_⟩
        intro hj0
        have hjR : j ∈ snapIds (export_to_json dbR now) :=
          (mem_snapIds_export dbR now j).mpr ((hdbRids j).mpr hj0)
        exact (not_contains_iff _ j).mp h2 hjR
      · rintro ⟨h1, h2⟩
        refine ⟨(mem_snapIds_export st.db now j).mpr h1, ?_⟩
        refine (not_contains_iff _ j).mpr ?_
        intro hjR
        exact h2 ((hdbRids j).mp ((mem_snapIds_export dbR now j).mp hjR))
    have hG1 : ∀ j, j ∈ dbIds db2 ↔ j ∈ dbIds st.db ∨ j ∈ snapIds snap0 := by
      intro j
      rw [hdb2, mem_dbIds_restore_foldl rows la dbR j hidsla]
      have h1 := hdbRids j
      have h2 := hlamem j
      tauto
    have hndrows : (rows.map (fun r => r.id)).Nodup :=
      (snapIds_export_perm st.db now).nodup_iff.mpr hnd
    have hG2 : ∀ r ∈ st.db.reflections, r.id ∉ snapIds snap0 →
        importRecord (exportRecord r) ∈ db2.reflections := by
      intro r hrmem hr2
      have hrow : exportRecord r ∈ rows :=
        List.mem_map_of_mem exportRecord
          ((List.mem_insertionSort _).mpr hrmem)
      have hlaR : r.id ∈ la :=
        (hlamem r.id).mpr ⟨List.mem_map_of_mem _ hrmem, hr2⟩
      have hndla : la.Nodup := by
        rw [hla]; exact hndrows.filter _
      have hfs : (rows.find? (fun s => s.id == r.id)).isSome := by
        rw [List.find?_isSome]
        exact ⟨exportRecord r, hrow, by simp [exportRecord]⟩
      obtain ⟨r0, hr0⟩ := Option.isSome_iff_exists.mp hfs
      have hb0 := List.find?_some hr0
      have hr0id : r0.id = r.id := eq_of_beq hb0
      have hr0mem : r0 ∈ rows := List.mem_of_find?_eq_some hr0
      have hr0eq : r0 = exportRecord r :=
        List.inj_on_of_nodup_map hndrows hr0mem hrow
          (by simpa [exportRecord] using hr0id)
      rw [hr0eq] at hr0
      rw [hdb2]
      exact restored_mem_foldl rows la dbR r.id (exportRecord r) hlaR
        hndla hr0
    refine ⟨?_, ?_, ?_⟩
    · intro j
      rw [hm]
      exact hG1 j
    · intro r hrmem hr2
      rw [hm]
      exact hG2 r hrmem hr2
    · refine ⟨export_to_json db2 now, ?_, ?_⟩
      · rw [hm]
        simp [sync_to_github, is_configured, hconf, hwrite]
      · intro j
        rw [mem_snapIds_export db2 now j]
        exact hG1 j
  · intro hdel
    have hm : merge_from_remote st net now =
        { st with db := { reflections := snap0.reflections.map importRecord } } := by
      simp [merge_from_remote, hsync2, hdel]
    rw [hm]
    exact ⟨rfl, rfl⟩

/-- An idle manager state with deletion sync disabled. -/
def stRestore : SyncState :=
  { sync_deletions := false, is_syncing := false, last_sync_time := some 90,
    sync_state_file := some 90, db := { reflections := [rec1] },
    remote := remoteC }

/-- C2 counterexample: the restoration loop does not re-insert a record
with its original field values.  Local store `[rec1]` (id 1, embedding
`some [7]`), remote snapshot `{2}`, deletion sync disabled: after the
merge the row with id 1 is back, but with a NULL embedding, so it differs
from the original record. -/
theorem merge_restore_drops_embedding :
    stRestore.db.reflections = [rec1] ∧
    (merge_from_remote stRestore netAllOk 50).db.reflections.filter
        (fun r => r.id == 1) = [{ rec1 with embedding := none }] ∧
    ({ rec1 with embedding := none } : Record) ≠ rec1 := by
  refine ⟨rfl, by decide, by decide⟩

/-- Witness for C2 (amended): local ids `{1}`, remote ids `{2}`; with
deletion sync disabled the merged store has id set `{1, 2}` and record 1
is restored in exported form; with deletion sync enabled the store becomes
exactly the imported remote rows and the remote is untouched. -/
theorem merge_from_remote_spec_witness :
    (1 ∈ dbIds (merge_from_remote stRestore netAllOk 50).db ↔
      1 ∈ dbIds stRestore.db ∨ 1 ∈ snapIds snapR) ∧
    importRecord (exportRecord rec1) ∈
      (merge_from_remote stRestore netAllOk 50).db.reflections ∧
    (merge_from_remote stIdle netAllOk 50).db.reflections =
      snapR.reflections.map importRecord ∧
    (merge_from_remote stIdle netAllOk 50).remote = stIdle.remote := by
  refine ⟨?_, ?_, ?_, ?_⟩
  · exact ((merge_from_remote_spec stRestore netAllOk 50 snapR rfl rfl rfl
      rfl (by decide)).1 rfl).1 1
  · exact ((merge_from_remote_spec stRestore netAllOk 50 snapR rfl rfl rfl
      rfl (by decide)).1 rfl).2.1 rec1 (by decide) (by decide)
  · exact ((merge_from_remote_spec stIdle netAllOk 50 snapR rfl rfl rfl
      rfl (by decide)).2 rfl).1
  · exact ((merge_from_remote_spec stIdle netAllOk 50 snapR rfl rfl rfl
      rfl (by decide)).2 rfl).2
